import Mathlib

/-!
# Verification of the arcaders-2022 runtime core

A shallow embedding of the game's core logic, translated from the Rust
sources `src/phi/mod.rs`, `src/views/mod.rs` and `src/views/game.rs`.
`f64` coordinates and times are embedded as rationals (`ℚ`); the external
pure function `f64::sin` is abstracted as an explicit parameter `sinF`,
and `2.0f64.sqrt()` as a parameter `sqrt2` (instantiated with `Real.sqrt 2`
in the theorem about diagonal movement).

Source modules `src/phi/events.rs` (the `struct_events!` input tracker),
`src/phi/data.rs` and `src/phi/gfx.rs` are not present in the repository
snapshot; the small parts of them that the claims need (the double-buffered
key snapshots with edge detection, and `AnimatedSprite`'s fps/accumulator)
are modelled from the spec, and are marked as such in their doc comments.
-/

/-- `Rectangle` from `src/views/mod.rs` (and, with the same shape, the
`phi::data::Rectangle` used by `src/views/game.rs`): an axis-aligned
rectangle with `f64` fields, embedded over `ℚ`. -/
structure Rectangle where
  x : ℚ
  y : ℚ
  w : ℚ
  h : ℚ
  deriving DecidableEq, Repr

/-- The integer-coordinate SDL rectangle produced by `Rectangle::to_sdl`:
`SdlRect::new(x as i32, y as i32, w as u32, h as u32)`. `i32` fields are
embedded as `ℤ`, `u32` fields as `ℕ`. -/
structure SdlRect where
  x : ℤ
  y : ℤ
  w : ℕ
  h : ℕ
  deriving DecidableEq, Repr

/-- Truncation toward zero, the rounding mode of Rust's `as` casts from
`f64` to an integer type. -/
def truncToward0 (q : ℚ) : ℤ :=
  if 0 ≤ q then ⌊q⌋ else ⌈q⌉

/-- Rust's saturating `f64 as i32` cast: truncate toward zero, then clamp
into `[-2^31, 2^31 - 1]`. -/
def castF64toI32 (q : ℚ) : ℤ :=
  max (-(2 ^ 31)) (min (2 ^ 31 - 1) (truncToward0 q))

/-- Rust's saturating `f64 as u32` cast: truncate toward zero, clamp above
by `2^32 - 1`; negative values saturate to `0`. -/
def castF64toU32 (q : ℚ) : ℕ :=
  (min (2 ^ 32 - 1) (truncToward0 q)).toNat

/-- `Rectangle::to_sdl` from `src/views/mod.rs` lines 17–23.  The source
asserts `w >= 0.0 && h >= 0.0` and then builds the SDL rect with `as`
casts; the failed assertion (a panic) is embedded as `none`. -/
def Rectangle.to_sdl (r : Rectangle) : Option SdlRect :=
  if 0 ≤ r.w ∧ 0 ≤ r.h then
    some ⟨castF64toI32 r.x, castF64toI32 r.y, castF64toU32 r.w, castF64toU32 r.h⟩
  else
    none

/-! ## Bullets (`src/views/game.rs`) -/

/-- `BULLET_SPEED` from `src/views/game.rs`: pixels per second shared by
all bullets. -/
def BULLET_SPEED : ℚ := 240

/-- `BULLET_W` from `src/views/game.rs`. -/
def BULLET_W : ℚ := 8

/-- `BULLET_H` from `src/views/game.rs`. -/
def BULLET_H : ℚ := 4

/-- `PLAYER_SPEED` from `src/views/game.rs`. -/
def PLAYER_SPEED : ℚ := 180

/-- `SHIP_W` from `src/views/game.rs`. -/
def SHIP_W : ℚ := 43

/-- `SHIP_H` from `src/views/game.rs`. -/
def SHIP_H : ℚ := 39

/-- The closed set of bullet variants behind the `Bullet` trait object in
`src/views/game.rs`: `RectBullet { rect }` and
`SineBullet { pos_x, origin_y, amplitude, angular_vel, total_time }`. -/
inductive Bullet where
  | rectB (rect : Rectangle)
  | sineB (pos_x origin_y amplitude angular_vel total_time : ℚ)
  deriving DecidableEq, Repr

/-- The `rect()` trait method: `RectBullet` returns its stored rectangle;
`SineBullet` computes `y = origin_y + amplitude * sin(angular_vel *
total_time)` with a `BULLET_W × BULLET_H` box at `x = pos_x`
(`src/views/game.rs` lines 192–194 and 220–229).  `sinF` abstracts
`f64::sin`. -/
def Bullet.boundingRect (sinF : ℚ → ℚ) : Bullet → Rectangle
  | .rectB r => r
  | .sineB px oy a av t =>
    { x := px, y := oy + a * sinF (av * t), w := BULLET_W, h := BULLET_H }

/-- The `update(self, phi, dt)` trait method (`src/views/game.rs` lines
172–182 for `RectBullet`, 198–213 for `SineBullet`).  `w` is the viewport
width obtained from `phi.output_size()`.  Returning `None` embeds the
bullet being culled. -/
def Bullet.update (sinF : ℚ → ℚ) (w dt : ℚ) : Bullet → Option Bullet
  | .rectB r =>
    let r' : Rectangle := { r with x := r.x + BULLET_SPEED * dt }
    if r'.x > w then none else some (.rectB r')
  | .sineB px oy a av t =>
    let b' : Bullet := .sineB (px + BULLET_SPEED * dt) oy a av (t + dt)
    if (b'.boundingRect sinF).x > w then none else some b'

/-- The per-frame bullet pass of `ShipView::render` (`src/views/game.rs`
lines 449–459): `old_bullets.into_iter().filter_map(|b| b.update(phi,
elapsed)).collect()`. -/
def updateBullets (sinF : ℚ → ℚ) (w dt : ℚ) (bs : List Bullet) : List Bullet :=
  bs.filterMap (Bullet.update sinF w dt)

/-- A sequence of `update` calls starting from a live bullet; `none`
propagates once the bullet is culled. -/
def runUpdates (sinF : ℚ → ℚ) (w : ℚ) (dts : List ℚ) (b : Bullet) : Option Bullet :=
  dts.foldl (fun ob dt => ob.bind (Bullet.update sinF w dt)) (some b)

/-! ## Ship and cannons (`src/views/game.rs`) -/

/-- `CannonType` from `src/views/game.rs` lines 232–236. -/
inductive CannonType where
  | rectBullet
  | sineBullet (amplitude angular_vel : ℚ)
  deriving DecidableEq, Repr

/-- The `Ship` fields that the bullet pipeline reads (`rect` and `cannon`);
the sprite list and current frame of the full source struct do not enter
any claim about bullets. -/
structure Ship where
  rect : Rectangle
  cannon : CannonType
  deriving DecidableEq, Repr

/-- `Ship::spawn_bullets` from `src/views/game.rs` lines 247–293: one
bullet at the tip of each of the two cannons, of the currently selected
`CannonType`, with `total_time = 0.0` for sine bullets. -/
def Ship.spawn_bullets (s : Ship) : List Bullet :=
  let cannons_x := s.rect.x + 30
  let cannons1_y := s.rect.y + 6
  let cannons2_y := s.rect.y + SHIP_H - 10
  match s.cannon with
  | .rectBullet =>
    [ .rectB { x := cannons_x, y := cannons1_y, w := BULLET_W, h := BULLET_H },
      .rectB { x := cannons_x, y := cannons2_y, w := BULLET_W, h := BULLET_H } ]
  | .sineBullet amplitude angular_vel =>
    [ .sineB cannons_x cannons1_y amplitude angular_vel 0,
      .sineB cannons_x cannons2_y amplitude angular_vel 0 ]

/-- The variant and parameters a cannon produces: used to state that every
spawned bullet is of the ship's currently selected kind. -/
def cannonMatches : CannonType → Bullet → Prop
  | .rectBullet, .rectB _ => True
  | .sineBullet a av, .sineB _ _ a' av' _ => a = a' ∧ av = av'
  | _, _ => False

/-- The accumulated flight time stored in a bullet (`total_time` for a
`SineBullet`; a `RectBullet` stores no time, i.e. zero). -/
def Bullet.storedTime : Bullet → ℚ
  | .rectB _ => 0
  | .sineB _ _ _ _ t => t

/-! ## Input tracker (modelled from the spec) -/

/-- The keys tracked by the `struct_events!` invocation in
`src/phi/mod.rs` lines 15–32. -/
inductive Key where
  | escape | up | down | left | right | space | enter | num1 | num2 | num3
  deriving DecidableEq, Repr

/-- Modelled from the spec: `src/phi/events.rs` is missing from the
snapshot; per spec §3/§4.1 the input tracker holds two per-key boolean
snapshots, `previous` and `current`, plus a quit flag. -/
structure Events where
  previousKeys : Key → Bool
  currentKeys : Key → Bool
  quit : Bool

/-- The discrete hardware events delivered by the input source since the
last poll (spec §6). -/
inductive KeyEvent where
  | keyDown (k : Key)
  | keyUp (k : Key)
  | quitRequested
  | other
  deriving DecidableEq, Repr

/-- Folding one hardware event into the `current` snapshot: key-down sets
the key, key-up clears it, everything else retains the prior level state. -/
def applyEvent (st : Key → Bool) : KeyEvent → (Key → Bool)
  | .keyDown k => fun k' => if k' = k then true else st k'
  | .keyUp k => fun k' => if k' = k then false else st k'
  | _ => st

/-- Modelled from the spec: `Events::pump` (spec §4.1) — copy `current`
into `previous`, fold all pending hardware events into `current`, and set
the quit flag if a quit event was observed. -/
def Events.pump (evs : List KeyEvent) (e : Events) : Events :=
  { previousKeys := e.currentKeys,
    currentKeys := evs.foldl applyEvent e.currentKeys,
    quit := e.quit || evs.contains .quitRequested }

/-- Modelled from the spec: the edge view `just_pressed(key)` =
`current[key] && !previous[key]` (spec §3).  This is the value the views
read as `phi.events.now.key_* == Some(true)`. -/
def Events.justPressed (e : Events) (k : Key) : Bool :=
  e.currentKeys k && !(e.previousKeys k)

/-! ## The bullet part of a `ShipView` frame (`src/views/game.rs`) -/

/-- Lines 449–476 of `src/views/game.rs`: the update/cull pass over the
owned bullet collection, followed — only when the space edge is observed —
by appending the freshly spawned volley at the end (`Vec::append`). -/
def shipFrameBullets (sinF : ℚ → ℚ) (w elapsed : ℚ) (e : Events) (player : Ship)
    (bullets : List Bullet) : List Bullet :=
  let bullets := updateBullets sinF w elapsed bullets
  if e.justPressed Key.space then bullets ++ player.spawn_bullets else bullets

/-! ## Ship movement (`src/views/game.rs` lines 396–417) -/

/-- The per-frame displacement `(dx, dy)` of the ship, generic over the
coordinate field so it can be read back over `ℝ` with the exact `√2`.
`sqrt2` abstracts `2.0f64.sqrt()`; the booleans are the held states
`phi.events.key_up/down/left/right`. -/
def shipDelta {K : Type} [Field K] (sqrt2 : K)
    (key_up key_down key_left key_right : Bool) (elapsed : K) : K × K :=
  let diagonal := (Bool.xor key_up key_down) && (Bool.xor key_left key_right)
  let moved := (if diagonal then 1 / sqrt2 else 1) * 180 * elapsed
  let dx : K :=
    match key_left, key_right with
    | true, true => 0
    | false, false => 0
    | true, false => -moved
    | false, true => moved
  let dy : K :=
    match key_up, key_down with
    | true, true => 0
    | false, false => 0
    | true, false => -moved
    | false, true => moved
  (dx, dy)

/-! ## Asteroid (`src/views/game.rs`) -/

/-- `ASTEROID_SIDE` from `src/views/game.rs`. -/
def ASTEROID_SIDE : ℚ := 96

/-- Modelled from the spec: `AnimatedSprite` lives in the missing
`src/phi/gfx.rs`; per spec §3/§4.2 it carries a frames-per-second rate and
an elapsed-time accumulator, `add_time(dt)` adds to the accumulator and
`set_fps` changes the rate without resetting the accumulator.  The frame
list itself enters no claim and is omitted. -/
structure AnimatedSprite where
  fps : ℚ
  timeAcc : ℚ
  deriving DecidableEq, Repr

/-- Modelled from the spec: `AnimatedSprite::set_fps`. -/
def AnimatedSprite.set_fps (s : AnimatedSprite) (fps : ℚ) : AnimatedSprite :=
  { s with fps := fps }

/-- Modelled from the spec: `AnimatedSprite::add_time`. -/
def AnimatedSprite.add_time (s : AnimatedSprite) (dt : ℚ) : AnimatedSprite :=
  { s with timeAcc := s.timeAcc + dt }

/-- `Asteroid` from `src/views/game.rs` lines 44–49. -/
structure Asteroid where
  sprite : AnimatedSprite
  rect : Rectangle
  vel : ℚ
  deriving DecidableEq, Repr

/-- `Asteroid::reset` from `src/views/game.rs` lines 69–87.  `(w, h)` is
`phi.output_size()`; `r1 r2 r3` are the three successive draws of
`rand::random::<f64>()`, each in `[0, 1)` (the source applies `.abs()` to
them, kept here verbatim). -/
def Asteroid.reset (w h r1 r2 r3 : ℚ) (a : Asteroid) : Asteroid :=
  { sprite := a.sprite.set_fps (|r1| * 20 + 10),
    rect := { w := ASTEROID_SIDE, h := ASTEROID_SIDE, x := w, y := |r2| * (h - ASTEROID_SIDE) },
    vel := |r3| * 100 + 50 }

/-- `Asteroid::update` from `src/views/game.rs` lines 115–122: move left
by `dt * vel`, advance the animation, and reset in place when
`rect.x <= -ASTEROID_SIDE`. -/
def Asteroid.update (w h r1 r2 r3 dt : ℚ) (a : Asteroid) : Asteroid :=
  let a' : Asteroid :=
    { a with rect := { a.rect with x := a.rect.x - dt * a.vel },
             sprite := a.sprite.add_time dt }
  if a'.rect.x ≤ -ASTEROID_SIDE then a'.reset w h r1 r2 r3 else a'

/-! ## The scheduler (`src/phi/mod.rs`) -/

/-- `ViewAction` from `src/phi/mod.rs` lines 67–71, generic over the type
`V` standing for `Box<dyn View>`. -/
inductive MViewAction (V : Type) where
  | none
  | quit
  | changeView (v : V)

/-- One frame-level step of the loop body of `spawn` (`src/phi/mod.rs`
lines 163–167): a view's `render` takes `&mut self` and returns a
directive, embedded as `render : V → V × MViewAction V`.  `ViewAction::None`
keeps the (mutated) view, `Quit` ends the loop (`none`), and
`ChangeView(new_view)` drops the current view and installs the new one. -/
def stepView {V : Type} (render : V → V × MViewAction V) (v : V) : Option V :=
  match (render v).2 with
  | .none => some (render v).1
  | .quit => none
  | .changeView nv => some nv

/-- Whether the frame rendered by `v` is presented: `present()` is invoked
only in the `ViewAction::None` arm (`src/phi/mod.rs` line 164). -/
def presentsFrame {V : Type} (render : V → V × MViewAction V) (v : V) : Bool :=
  match (render v).2 with
  | .none => true
  | _ => false

/-- The view driving frame `n` of the loop (`none` once the loop has
terminated through `Quit`). -/
def activeView {V : Type} (render : V → V × MViewAction V) (v : V) : Nat → Option V
  | 0 => some v
  | n + 1 => (activeView render v n).bind (stepView render)

/-- `interval` from `src/phi/mod.rs` line 130: `1_000 / 60` in integer
milliseconds. -/
def loopInterval : Nat := 1000 / 60

/-- What one iteration of the `loop` in `spawn` does, at the timing level
(`src/phi/mod.rs` lines 135–168). -/
inductive LoopIterResult (E V : Type) where
  /-- The `dt < interval` branch: `timer.delay(interval - dt)` then
  `continue` — the recorded delay, with `before`, the events and the view
  all untouched. -/
  | waited (delay : Nat) (before : Nat) (ev : E) (v : V)
  /-- A full frame: new `before`, the `elapsed` seconds passed to `render`,
  the pumped events, the next active view, and whether `present` ran. -/
  | framed (before : Nat) (elapsed : ℚ) (ev : E) (next : V) (presented : Bool)
  /-- The `ViewAction::Quit` arm: `break`. -/
  | quitted (before : Nat) (ev : E)

/-- One iteration of the scheduler loop (`src/phi/mod.rs` lines 135–168):
read `now`, compute `dt = now - before`; if `dt < interval`, delay for
`interval - dt` and retry without touching any state; otherwise pump the
events, call `render` with `elapsed = dt / 1000` seconds, and dispatch on
the returned directive. -/
def loopIter {E V : Type} (pumpF : E → E) (render : E → ℚ → V → V × MViewAction V)
    (before now : Nat) (ev : E) (v : V) : LoopIterResult E V :=
  let dt := now - before
  if dt < loopInterval then
    .waited (loopInterval - dt) before ev v
  else
    let elapsed : ℚ := (dt : ℚ) / 1000
    let ev' := pumpF ev
    match (render ev' elapsed v).2 with
    | .none => .framed now elapsed ev' (render ev' elapsed v).1 true
    | .quit => .quitted now ev'
    | .changeView nv => .framed now elapsed ev' nv false


/-! ## Helper lemmas -/

/-- A culled bullet stays culled: folding further `update` calls over
`none` yields `none`. -/
lemma foldl_update_none (sinF : ℚ → ℚ) (w : ℚ) (dts : List ℚ) :
    dts.foldl (fun ob dt => ob.bind (Bullet.update sinF w dt)) none = none := by
  induction dts with
  | nil => rfl
  | cons d ds ih => simpa using ih

/-- Unfolding one step of `runUpdates`. -/
lemma runUpdates_cons (sinF : ℚ → ℚ) (w d : ℚ) (ds : List ℚ) (b : Bullet) :
    runUpdates sinF w (d :: ds) b
      = match Bullet.update sinF w d b with
        | none => none
        | some b1 => runUpdates sinF w ds b1 := by
  show List.foldl _ ((some b).bind (Bullet.update sinF w d)) ds = _
  rw [Option.some_bind]
  cases hud : Bullet.update sinF w d b with
  | none => exact foldl_update_none sinF w ds
  | some b1 => rfl

/-- `RectBullet` single-step update in closed form. -/
lemma update_rectB (sinF : ℚ → ℚ) (w dt : ℚ) (r : Rectangle) :
    Bullet.update sinF w dt (.rectB r)
      = (if r.x + BULLET_SPEED * dt > w then none
         else some (.rectB { x := r.x + BULLET_SPEED * dt, y := r.y, w := r.w, h := r.h })) := by
  simp only [Bullet.update]

/-- Position of a `RectBullet` after a whole sequence of surviving
`update` calls: `x` advances by `BULLET_SPEED` times the total time. -/
lemma runUpdates_rectB (sinF : ℚ → ℚ) (w : ℚ) :
    ∀ (dts : List ℚ) (r : Rectangle) (b' : Bullet),
      runUpdates sinF w dts (.rectB r) = some b' →
      b' = .rectB { x := r.x + BULLET_SPEED * dts.sum, y := r.y, w := r.w, h := r.h } := by
  intro dts
  induction dts with
  | nil =>
    intro r b' hrun
    simp only [runUpdates, List.foldl_nil, Option.some.injEq] at hrun
    subst hrun
    simp
  | cons d ds ih =>
    intro r b' hrun
    rw [runUpdates_cons, update_rectB] at hrun
    by_cases hc : r.x + BULLET_SPEED * d > w
    · rw [if_pos hc] at hrun
      exact Option.noConfusion hrun
    · rw [if_neg hc] at hrun
      have hstep := ih { x := r.x + BULLET_SPEED * d, y := r.y, w := r.w, h := r.h } b' hrun
      rw [hstep]
      simp only [List.sum_cons]
      congr 1
      ring_nf

/-- The survivors of one `filterMap` pass are exactly, and in order, the
`some` results of the elements on which the function succeeds. -/
lemma forall2_filterMap {α β : Type} (f : α → Option β) :
    ∀ l : List α,
      List.Forall₂ (fun x y => f x = some y)
        (l.filter (fun x => (f x).isSome)) (l.filterMap f) := by
  intro l
  induction l with
  | nil => simp
  | cons a l ih =>
    cases hfa : f a with
    | none => simpa [List.filter_cons, List.filterMap_cons, hfa] using ih
    | some b =>
      simp only [List.filter_cons, List.filterMap_cons, hfa, Option.isSome_some, if_pos]
      exact List.Forall₂.cons hfa ih

/-- A bullet whose bounding rectangle already starts at or beyond the
viewport width is culled by `update` whenever `dt > 0`. -/
lemma update_cull_of_offscreen (sinF : ℚ → ℚ) (w dt : ℚ) (b : Bullet)
    (hdt : 0 < dt) (hb : w ≤ (b.boundingRect sinF).x) :
    Bullet.update sinF w dt b = none := by
  have hspeed : (0:ℚ) < BULLET_SPEED * dt := by
    have h240 : (0:ℚ) < BULLET_SPEED := by norm_num [BULLET_SPEED]
    positivity
  cases b with
  | rectB r =>
    simp only [Bullet.boundingRect] at hb
    rw [update_rectB, if_pos (by linarith)]
  | sineB px oy a av t =>
    simp only [Bullet.boundingRect] at hb
    simp only [Bullet.update, Bullet.boundingRect]
    rw [if_pos (by linarith)]

/-! ## C3 — RectBullet update -/

/-- C3: `RectBullet::update` adds `BULLET_SPEED * dt` (240 px/s) to `x`,
leaves `y`, `w`, `h` unchanged, and returns `None` exactly when the
resulting `x` exceeds the viewport width `w`; otherwise it returns the
same bullet, moved. -/
theorem C3_rectBullet_update (sinF : ℚ → ℚ) (r : Rectangle) (w dt : ℚ) :
    Bullet.update sinF w dt (.rectB r)
        = (if r.x + BULLET_SPEED * dt > w then none
           else some (.rectB { x := r.x + BULLET_SPEED * dt, y := r.y, w := r.w, h := r.h }))
    ∧ BULLET_SPEED = 240 :=
  ⟨update_rectB sinF w dt r, rfl⟩

/-! ## C5 — SineBullet derived rectangle -/

/-- C5: a `SineBullet`'s bounding rectangle is a pure function of its
stored state — a `BULLET_W × BULLET_H` box at `x = pos_x`,
`y = origin_y + amplitude * sin(angular_vel * total_time)` (so two calls
of `rect()` without an intervening `update` are the same value by
definition); `update` advances only `total_time` (by `dt`) and `pos_x`
(by `BULLET_SPEED * dt`, the same speed as `RectBullet`), and culls by
comparing the derived rectangle's `x` against the same `x > w` threshold;
that derived `x` is exactly the advanced `pos_x`. -/
theorem C5_sineBullet_derived_rect (sinF : ℚ → ℚ) (px oy a av t w dt : ℚ) :
    Bullet.boundingRect sinF (.sineB px oy a av t)
        = { x := px, y := oy + a * sinF (av * t), w := BULLET_W, h := BULLET_H }
    ∧ Bullet.update sinF w dt (.sineB px oy a av t)
        = (if (Bullet.boundingRect sinF
                (.sineB (px + BULLET_SPEED * dt) oy a av (t + dt))).x > w
           then none
           else some (.sineB (px + BULLET_SPEED * dt) oy a av (t + dt)))
    ∧ (Bullet.boundingRect sinF (.sineB (px + BULLET_SPEED * dt) oy a av (t + dt))).x
        = px + BULLET_SPEED * dt
    ∧ BULLET_SPEED = 240 := by
  refine ⟨rfl, ?_, rfl, rfl⟩
  simp only [Bullet.update]

/-! ## C8 — linearity of RectBullet motion -/

/-- C8: `RectBullet` update is linear and associative under summation of
`dt`: any sequence of surviving `update` calls moves `x` by exactly
`BULLET_SPEED` times the sum of the `dt`s, with the other fields
untouched; and the end-to-end scenario — a bullet at `x = 94` updated once
with `elapsed = 3` seconds in an 800-wide viewport reaches
`x = 94 + 720 = 814 > 800`, so `update` returns `none` (removal). -/
theorem C8_rectBullet_linear (sinF : ℚ → ℚ) (w : ℚ) :
    (∀ (dts : List ℚ) (r : Rectangle) (b' : Bullet),
        runUpdates sinF w dts (.rectB r) = some b' →
        b' = .rectB { x := r.x + BULLET_SPEED * dts.sum, y := r.y, w := r.w, h := r.h })
    ∧ Bullet.update sinF 800 3 (.rectB { x := 94, y := 120, w := BULLET_W, h := BULLET_H })
        = none := by
  refine ⟨runUpdates_rectB sinF w, ?_⟩
  rw [update_rectB, if_pos (by norm_num [BULLET_SPEED])]

/-- Witness for C8 at a concrete input: two surviving updates of total
time 3 starting from `x = 0` end at `x = 0 + 240 · 3 = 720`. -/
theorem C8_rectBullet_linear_witness :
    runUpdates (fun _ => 0) 1000000 [1, 2] (.rectB { x := 0, y := 0, w := 8, h := 4 })
        = some (.rectB { x := 720, y := 0, w := 8, h := 4 })
    ∧ Bullet.rectB { x := (720:ℚ), y := 0, w := 8, h := 4 }
        = .rectB { x := 0 + BULLET_SPEED * ([1, 2] : List ℚ).sum, y := 0, w := 8, h := 4 } := by
  have hrun : runUpdates (fun _ => (0:ℚ)) 1000000 [1, 2]
      (.rectB { x := 0, y := 0, w := 8, h := 4 })
      = some (.rectB { x := 720, y := 0, w := 8, h := 4 }) := by
    rw [runUpdates_cons, update_rectB, if_neg (by norm_num [BULLET_SPEED])]
    norm_num [BULLET_SPEED]
    rw [runUpdates_cons, update_rectB, if_neg (by norm_num [BULLET_SPEED])]
    norm_num [BULLET_SPEED, runUpdates]
  exact ⟨hrun,
    (C8_rectBullet_linear (fun _ => 0) 1000000).1 [1, 2]
      { x := 0, y := 0, w := 8, h := 4 } _ hrun⟩

/-! ## C2 — the update/cull pass -/

/-- C2 counterexample: the claim's "in particular" clause fails as stated.
With viewport width 800 and `elapsed = 1`, a collection
`[b₀ at x = 0, b₁ at x = 900]` where bullet `i = 1` has `x ≥ 800` does
not end up as "exactly the bullets with index ≠ 1": the pass yields
`[b₀ moved to x = 240]`, not `[b₀]` (and with two off-screen bullets it
would drop both). -/
theorem C2_counterexample :
    updateBullets (fun _ => 0) 800 1
        [ .rectB { x := 0, y := 0, w := 8, h := 4 },
          .rectB { x := 900, y := 0, w := 8, h := 4 } ]
      ≠ [ .rectB { x := 0, y := 0, w := 8, h := 4 } ] := by
  have h0 : Bullet.update (fun _ => (0:ℚ)) 800 1 (.rectB { x := 0, y := 0, w := 8, h := 4 })
      = some (.rectB { x := 240, y := 0, w := 8, h := 4 }) := by
    rw [update_rectB, if_neg (by norm_num [BULLET_SPEED])]
    norm_num [BULLET_SPEED]
  have h1 : Bullet.update (fun _ => (0:ℚ)) 800 1 (.rectB { x := 900, y := 0, w := 8, h := 4 })
      = none := by
    rw [update_rectB, if_pos (by norm_num [BULLET_SPEED])]
  have hres : updateBullets (fun _ => (0:ℚ)) 800 1
      [ .rectB { x := 0, y := 0, w := 8, h := 4 },
        .rectB { x := 900, y := 0, w := 8, h := 4 } ]
      = [ .rectB { x := 240, y := 0, w := 8, h := 4 } ] := by
    simp [updateBullets, List.filterMap_cons, h0, h1]
  rw [hres]
  simp only [ne_eq, List.cons.injEq, Bullet.rectB.injEq, Rectangle.mk.injEq]
  norm_num

/-- C2 (amended): after the one update pass the collection is exactly, and
in order, the `some` results of `update` on the surviving bullets; and —
amended — if bullet `i` has x-position ≥ viewport width and the frame time
is positive, then bullet `i` is culled, so the post-pass collection equals
the pass over the remaining bullets (their updated versions, order
preserved), not the original bullets themselves. -/
theorem C2_pipeline_amended (sinF : ℚ → ℚ) (w dt : ℚ) (bs l1 l2 : List Bullet) (b : Bullet) :
    List.Forall₂ (fun x y => Bullet.update sinF w dt x = some y)
        (bs.filter (fun x => (Bullet.update sinF w dt x).isSome)) (updateBullets sinF w dt bs)
    ∧ (0 < dt → w ≤ (b.boundingRect sinF).x →
        updateBullets sinF w dt (l1 ++ b :: l2)
          = updateBullets sinF w dt l1 ++ updateBullets sinF w dt l2) := by
  refine ⟨forall2_filterMap _ bs, ?_⟩
  intro hdt hb
  simp [updateBullets, List.filterMap_append, List.filterMap_cons,
    update_cull_of_offscreen sinF w dt b hdt hb]

/-- Witness for C2 (amended) at a concrete input: with `dt = 1 > 0` and an
off-screen bullet at `x = 900 ≥ 800` between two sublists, the pass splits
around the culled bullet. -/
theorem C2_pipeline_amended_witness :
    (0:ℚ) < 1
    ∧ (800:ℚ) ≤ ((Bullet.rectB { x := 900, y := 0, w := 8, h := 4 }).boundingRect (fun _ => 0)).x
    ∧ updateBullets (fun _ => 0) 800 1
        ([ .rectB { x := 0, y := 0, w := 8, h := 4 } ]
          ++ .rectB { x := 900, y := 0, w := 8, h := 4 } :: [])
      = updateBullets (fun _ => 0) 800 1 [ .rectB { x := 0, y := 0, w := 8, h := 4 } ]
        ++ updateBullets (fun _ => 0) 800 1 [] := by
  refine ⟨by norm_num, by norm_num [Bullet.boundingRect], ?_⟩
  exact (C2_pipeline_amended (fun _ => 0) 800 1 []
      [ .rectB { x := 0, y := 0, w := 8, h := 4 } ] []
      (.rectB { x := 900, y := 0, w := 8, h := 4 })).2
    (by norm_num) (by norm_num [Bullet.boundingRect])

/-! ## C4 — edge-triggered shooting -/

/-- If no key-down event for `k` is delivered, the pumped `current` level
of `k` can only have come from the prior level. -/
lemma foldl_no_keyDown (k : Key) :
    ∀ (evs : List KeyEvent) (st : Key → Bool), KeyEvent.keyDown k ∉ evs →
      (evs.foldl applyEvent st) k = true → st k = true := by
  intro evs
  induction evs with
  | nil => intro st _ hlvl; exact hlvl
  | cons ev evs ih =>
    intro st hmem hlvl
    have hEvs : KeyEvent.keyDown k ∉ evs := fun hc => hmem (List.mem_cons_of_mem _ hc)
    have hone : applyEvent st ev k = true := ih (applyEvent st ev) hEvs hlvl
    cases ev with
    | keyDown k2 =>
      have hkk : ¬(k = k2) := by
        intro he
        exact hmem (by rw [he]; exact List.mem_cons_self _ _)
      simpa [applyEvent, hkk] using hone
    | keyUp k2 =>
      by_cases hkk : k = k2
      · simp [applyEvent, hkk] at hone
      · simpa [applyEvent, hkk] using hone
    | quitRequested => exact hone
    | other => exact hone

/-- C4: bullets are added exactly on a space key-down edge — the frame's
post-pass collection is the update pass on the old bullets with, appended
at the end only when `just_pressed(space)` holds, the spawned volley left
untouched by that frame's pass; the volley is always exactly two bullets,
each of the ship's currently selected `CannonType` with zero stored time
(and `spawn_bullets` reads only the ship's rectangle and cannon, being a
function of the `Ship` value alone); and the edge itself fires at most
once per physical key-down: a pump delivering no space key-down event
yields no edge (in particular while the key is merely held), while a pump
delivering a key-down when the key was up does. -/
theorem C4_shooting (sinF : ℚ → ℚ) (w elapsed : ℚ) (player : Ship) (bs : List Bullet)
    (e : Events) (evs : List KeyEvent) :
    shipFrameBullets sinF w elapsed e player bs
        = updateBullets sinF w elapsed bs
          ++ (if e.justPressed Key.space then player.spawn_bullets else [])
    ∧ player.spawn_bullets.length = 2
    ∧ (∀ b ∈ player.spawn_bullets, cannonMatches player.cannon b ∧ b.storedTime = 0)
    ∧ (KeyEvent.keyDown Key.space ∉ evs → (e.pump evs).justPressed Key.space = false)
    ∧ (e.currentKeys Key.space = false →
        (e.pump [KeyEvent.keyDown Key.space]).justPressed Key.space = true) := by
  refine ⟨?_, ?_, ?_, ?_, ?_⟩
  · unfold shipFrameBullets
    split <;> simp
  · cases hcn : player.cannon <;> simp [Ship.spawn_bullets, hcn]
  · intro b hb
    cases hcn : player.cannon with
    | rectBullet =>
      simp only [Ship.spawn_bullets, hcn, List.mem_cons, List.mem_singleton,
        List.not_mem_nil, or_false] at hb
      rcases hb with h | h <;> subst h <;>
        exact ⟨trivial, rfl⟩
    | sineBullet a av =>
      simp only [Ship.spawn_bullets, hcn, List.mem_cons, List.mem_singleton,
        List.not_mem_nil, or_false] at hb
      rcases hb with h | h <;> subst h <;>
        exact ⟨⟨rfl, rfl⟩, rfl⟩
  · intro hmem
    unfold Events.justPressed Events.pump
    cases hlvl : (evs.foldl applyEvent e.currentKeys) Key.space with
    | false => simp [hlvl]
    | true =>
      have := foldl_no_keyDown Key.space evs e.currentKeys hmem hlvl
      simp [hlvl, this]
  · intro hup
    simp [Events.justPressed, Events.pump, applyEvent, hup]

/-- Witness for C4 at a concrete input: with the space key held from the
previous frame and only a key-up delivered, the pumped edge is false — no
volley on a frame of mere holding. -/
theorem C4_shooting_witness :
    KeyEvent.keyDown Key.space ∉ [KeyEvent.keyUp Key.space]
    ∧ (Events.pump [KeyEvent.keyUp Key.space]
        { previousKeys := fun _ => false, currentKeys := fun _ => true, quit := false
          }).justPressed Key.space = false :=
  ⟨by decide,
   (C4_shooting (fun _ => 0) 800 1
      { rect := { x := 64, y := 64, w := 43, h := 39 }, cannon := .rectBullet } []
      { previousKeys := fun _ => false, currentKeys := fun _ => true, quit := false }
      [KeyEvent.keyUp Key.space]).2.2.2.1 (by decide)⟩

/-! ## C6 — asteroid reset -/

/-- C6: the asteroid is never destroyed — `update` always yields the same
instance, and in every update whose moved rectangle ends at
`x ≤ -ASTEROID_SIDE = -96` the instance is reset in place: for all random
draws in `[0, 1)` the reset puts `x` at exactly the viewport width, `y` in
`[0, h - 96)`, the velocity in `[50, 150)`, the animation fps in
`[10, 30)`, and keeps the 96×96 extent; the animation accumulator carries
over (reset, not reconstruction). -/
theorem C6_asteroid_reset (w h r1 r2 r3 dt : ℚ) (a : Asteroid)
    (hr1 : 0 ≤ r1) (hr1u : r1 < 1) (hr2 : 0 ≤ r2) (hr2u : r2 < 1)
    (hr3 : 0 ≤ r3) (hr3u : r3 < 1) (hh : ASTEROID_SIDE < h)
    (htrig : a.rect.x - dt * a.vel ≤ -ASTEROID_SIDE) :
    (Asteroid.update w h r1 r2 r3 dt a).rect.x = w
    ∧ 0 ≤ (Asteroid.update w h r1 r2 r3 dt a).rect.y
    ∧ (Asteroid.update w h r1 r2 r3 dt a).rect.y < h - ASTEROID_SIDE
    ∧ 50 ≤ (Asteroid.update w h r1 r2 r3 dt a).vel
    ∧ (Asteroid.update w h r1 r2 r3 dt a).vel < 150
    ∧ 10 ≤ (Asteroid.update w h r1 r2 r3 dt a).sprite.fps
    ∧ (Asteroid.update w h r1 r2 r3 dt a).sprite.fps < 30
    ∧ (Asteroid.update w h r1 r2 r3 dt a).rect.w = ASTEROID_SIDE
    ∧ (Asteroid.update w h r1 r2 r3 dt a).rect.h = ASTEROID_SIDE
    ∧ (Asteroid.update w h r1 r2 r3 dt a).sprite.timeAcc = a.sprite.timeAcc + dt
    ∧ ASTEROID_SIDE = 96 := by
  have hupd : Asteroid.update w h r1 r2 r3 dt a
      = Asteroid.reset w h r1 r2 r3
          { a with rect := { a.rect with x := a.rect.x - dt * a.vel },
                   sprite := a.sprite.add_time dt } := by
    unfold Asteroid.update
    rw [if_pos htrig]
  rw [hupd]
  unfold Asteroid.reset AnimatedSprite.set_fps AnimatedSprite.add_time
  rw [abs_of_nonneg hr1, abs_of_nonneg hr2, abs_of_nonneg hr3]
  dsimp only
  have hside : ASTEROID_SIDE < h := hh
  refine ⟨rfl, ?_, ?_, ?_, ?_, ?_, ?_, rfl, rfl, rfl, rfl⟩
  · exact mul_nonneg hr2 (by linarith)
  · exact mul_lt_of_lt_one_left (by linarith) hr2u
  · nlinarith
  · nlinarith
  · nlinarith
  · nlinarith

/-- Witness for C6: a concrete asteroid at `x = 0` with velocity 100 and
`dt = 1` ends the move at `x = -100 ≤ -96` and is reset with draws of
one half on an 800×600 viewport. -/
theorem C6_asteroid_reset_witness :
    (0:ℚ) ≤ 1/2 ∧ ASTEROID_SIDE < (600:ℚ)
    ∧ ((Asteroid.update 800 600 (1/2) (1/2) (1/2) 1
          { sprite := { fps := 12, timeAcc := 5 },
            rect := { x := 0, y := 50, w := 96, h := 96 }, vel := 100 }).rect.x = 800
      ∧ 0 ≤ (Asteroid.update 800 600 (1/2) (1/2) (1/2) 1
          { sprite := { fps := 12, timeAcc := 5 },
            rect := { x := 0, y := 50, w := 96, h := 96 }, vel := 100 }).rect.y
      ∧ (Asteroid.update 800 600 (1/2) (1/2) (1/2) 1
          { sprite := { fps := 12, timeAcc := 5 },
            rect := { x := 0, y := 50, w := 96, h := 96 }, vel := 100 }).rect.y < 600 - ASTEROID_SIDE
      ∧ 50 ≤ (Asteroid.update 800 600 (1/2) (1/2) (1/2) 1
          { sprite := { fps := 12, timeAcc := 5 },
            rect := { x := 0, y := 50, w := 96, h := 96 }, vel := 100 }).vel
      ∧ (Asteroid.update 800 600 (1/2) (1/2) (1/2) 1
          { sprite := { fps := 12, timeAcc := 5 },
            rect := { x := 0, y := 50, w := 96, h := 96 }, vel := 100 }).vel < 150
      ∧ 10 ≤ (Asteroid.update 800 600 (1/2) (1/2) (1/2) 1
          { sprite := { fps := 12, timeAcc := 5 },
            rect := { x := 0, y := 50, w := 96, h := 96 }, vel := 100 }).sprite.fps
      ∧ (Asteroid.update 800 600 (1/2) (1/2) (1/2) 1
          { sprite := { fps := 12, timeAcc := 5 },
            rect := { x := 0, y := 50, w := 96, h := 96 }, vel := 100 }).sprite.fps < 30
      ∧ (Asteroid.update 800 600 (1/2) (1/2) (1/2) 1
          { sprite := { fps := 12, timeAcc := 5 },
            rect := { x := 0, y := 50, w := 96, h := 96 }, vel := 100 }).rect.w = ASTEROID_SIDE
      ∧ (Asteroid.update 800 600 (1/2) (1/2) (1/2) 1
          { sprite := { fps := 12, timeAcc := 5 },
            rect := { x := 0, y := 50, w := 96, h := 96 }, vel := 100 }).rect.h = ASTEROID_SIDE
      ∧ (Asteroid.update 800 600 (1/2) (1/2) (1/2) 1
          { sprite := { fps := 12, timeAcc := 5 },
            rect := { x := 0, y := 50, w := 96, h := 96 }, vel := 100 }).sprite.timeAcc = 5 + 1
      ∧ ASTEROID_SIDE = 96) :=
  ⟨by norm_num, by norm_num [ASTEROID_SIDE],
   C6_asteroid_reset 800 600 (1/2) (1/2) (1/2) 1
     { sprite := { fps := 12, timeAcc := 5 },
       rect := { x := 0, y := 50, w := 96, h := 96 }, vel := 100 }
     (by norm_num) (by norm_num) (by norm_num) (by norm_num) (by norm_num) (by norm_num)
     (by norm_num [ASTEROID_SIDE]) (by norm_num [ASTEROID_SIDE])⟩

/-! ## C9 — to_sdl -/

/-- Truncation toward zero never increases the magnitude, and loses less
than one unit of it: the characterization that separates truncation from
rounding. -/
lemma truncToward0_abs (q : ℚ) :
    |((truncToward0 q : ℤ) : ℚ)| ≤ |q| ∧ |q| < |((truncToward0 q : ℤ) : ℚ)| + 1 := by
  unfold truncToward0
  by_cases hq : 0 ≤ q
  · rw [if_pos hq]
    have h1 : ((⌊q⌋ : ℤ) : ℚ) ≤ q := Int.floor_le q
    have h2 : q < ⌊q⌋ + 1 := Int.lt_floor_add_one q
    have h0 : (0:ℤ) ≤ ⌊q⌋ := Int.floor_nonneg.mpr hq
    have h0q : (0:ℚ) ≤ ((⌊q⌋ : ℤ) : ℚ) := by exact_mod_cast h0
    rw [abs_of_nonneg hq, abs_of_nonneg h0q]
    exact ⟨h1, h2⟩
  · push_neg at hq
    rw [if_neg (not_le.mpr hq)]
    have h1 : q ≤ ((⌈q⌉ : ℤ) : ℚ) := Int.le_ceil q
    have h2 : ((⌈q⌉ : ℤ) : ℚ) < q + 1 := Int.ceil_lt_add_one q
    have h0 : ⌈q⌉ ≤ (0:ℤ) := Int.ceil_le.mpr (by exact_mod_cast hq.le)
    have h0q : ((⌈q⌉ : ℤ) : ℚ) ≤ 0 := by exact_mod_cast h0
    rw [abs_of_nonpos hq.le, abs_of_nonpos h0q]
    constructor <;> linarith

/-- In the `i32` range the saturating cast is plain truncation. -/
lemma castF64toI32_eq (q : ℚ) (hq : |q| ≤ 2 ^ 31 - 1) :
    castF64toI32 q = truncToward0 q := by
  have h := (truncToward0_abs q).1
  have habs : |((truncToward0 q : ℤ) : ℚ)| ≤ 2 ^ 31 - 1 := le_trans h hq
  have hz : |truncToward0 q| ≤ (2 ^ 31 - 1 : ℤ) := by exact_mod_cast habs
  have hz2 := abs_le.mp hz
  unfold castF64toI32
  omega

/-- In the `u32` range the saturating cast is plain truncation. -/
lemma castF64toU32_eq (q : ℚ) (h0 : 0 ≤ q) (hq : q ≤ 2 ^ 32 - 1) :
    castF64toU32 q = (truncToward0 q).toNat := by
  have ht : truncToward0 q = ⌊q⌋ := by unfold truncToward0; rw [if_pos h0]
  have hfl : ((⌊q⌋ : ℤ) : ℚ) ≤ 2 ^ 32 - 1 := le_trans (Int.floor_le q) hq
  have hz : ⌊q⌋ ≤ (2 ^ 32 - 1 : ℤ) := by exact_mod_cast hfl
  unfold castF64toU32
  omega

/-- C9: `Rectangle::to_sdl` trips its assertion (panics) exactly when
`w < 0` or `h < 0`; for `w ≥ 0` and `h ≥ 0` (with every coordinate in its
target integer range) the assertion passes and the SDL rect is the
truncation — not the rounding — of `x` and `y` to `i32` and of `w` and `h`
to `u32`; truncation itself is characterized by keeping the magnitude
within one below, never above. -/
theorem C9_to_sdl (r : Rectangle) :
    (r.to_sdl = none ↔ r.w < 0 ∨ r.h < 0)
    ∧ (∀ q : ℚ, |((truncToward0 q : ℤ) : ℚ)| ≤ |q| ∧ |q| < |((truncToward0 q : ℤ) : ℚ)| + 1)
    ∧ (0 ≤ r.w → 0 ≤ r.h →
        |r.x| ≤ 2 ^ 31 - 1 → |r.y| ≤ 2 ^ 31 - 1 →
        r.w ≤ 2 ^ 32 - 1 → r.h ≤ 2 ^ 32 - 1 →
        r.to_sdl = some { x := truncToward0 r.x, y := truncToward0 r.y,
                          w := (truncToward0 r.w).toNat, h := (truncToward0 r.h).toNat }) := by
  refine ⟨?_, truncToward0_abs, ?_⟩
  · constructor
    · intro hn
      by_contra hcon
      push_neg at hcon
      rw [Rectangle.to_sdl, if_pos hcon] at hn
      exact Option.noConfusion hn
    · intro hor
      have hneg : ¬(0 ≤ r.w ∧ 0 ≤ r.h) := by
        rintro ⟨c1, c2⟩
        rcases hor with hlt | hlt <;> linarith
      rw [Rectangle.to_sdl, if_neg hneg]
  · intro hw hh hx hy hw2 hh2
    rw [Rectangle.to_sdl, if_pos ⟨hw, hh⟩,
      castF64toI32_eq r.x hx, castF64toI32_eq r.y hy,
      castF64toU32_eq r.w hw hw2, castF64toU32_eq r.h hh hh2]

/-- Witness for C9 at a concrete rectangle with a negative `x`: the
assertion passes and every field is the toward-zero truncation. -/
theorem C9_to_sdl_witness :
    (0:ℚ) ≤ 7/2 ∧ |(-3/2 : ℚ)| ≤ 2 ^ 31 - 1
    ∧ Rectangle.to_sdl { x := -3/2, y := 5/2, w := 7/2, h := 0 }
        = some { x := truncToward0 (-3/2), y := truncToward0 (5/2),
                 w := (truncToward0 (7/2)).toNat, h := (truncToward0 0).toNat } :=
  ⟨by norm_num, by rw [abs_of_nonpos (by norm_num)]; norm_num,
   (C9_to_sdl { x := -3/2, y := 5/2, w := 7/2, h := 0 }).2.2
     (by norm_num) (by norm_num)
     (by rw [show |(-3/2 : ℚ)| = 3/2 by rw [abs_of_nonpos] <;> norm_num]; norm_num)
     (by rw [abs_of_nonneg (by norm_num)]; norm_num)
     (by norm_num) (by norm_num)⟩

/-! ## C1 — view transitions -/

/-- Running the loop for `n + k` frames is running it for `n` frames and
then continuing from whatever view is then active. -/
lemma activeView_add {V : Type} (render : V → V × MViewAction V) (v : V) :
    ∀ (k n : Nat),
      activeView render v (n + k)
        = (activeView render v n).bind (fun u => activeView render u k) := by
  intro k
  induction k with
  | zero =>
    intro n
    cases hv : activeView render v n <;> simp [hv, activeView]
  | succ k ih =>
    intro n
    show activeView render v ((n + k) + 1) = _
    rw [activeView, ih n]
    cases hv : activeView render v n <;> simp [hv, activeView]

/-- C1: if the active view of frame `N` returns `ChangeView v`, that frame
is not presented (`present` runs only for the `None` directive), frame
`N + 1` is driven by `v`, and the whole remainder of the run is exactly
the run started from `v` — the replaced view never drives a frame again;
a `Quit` directive makes every later frame nonexistent (the loop has
terminated). -/
theorem C1_view_transition {V : Type} (render : V → V × MViewAction V)
    (v0 vN v2 : V) (N : Nat) (hN : activeView render v0 N = some vN) :
    ((render vN).2 = MViewAction.changeView v2 →
        presentsFrame render vN = false
        ∧ activeView render v0 (N + 1) = some v2
        ∧ ∀ k, activeView render v0 (N + 1 + k) = activeView render v2 k)
    ∧ ((render vN).2 = MViewAction.quit →
        ∀ k, activeView render v0 (N + 1 + k) = none)
    ∧ (presentsFrame render vN = true ↔ (render vN).2 = MViewAction.none) := by
  refine ⟨?_, ?_, ?_⟩
  · intro hchg
    have hstep : stepView render vN = some v2 := by
      unfold stepView
      rw [hchg]
    have hN1 : activeView render v0 (N + 1) = some v2 := by
      rw [activeView, hN, Option.some_bind, hstep]
    refine ⟨?_, hN1, ?_⟩
    · unfold presentsFrame
      rw [hchg]
    · intro k
      rw [activeView_add render v0 k (N + 1), hN1, Option.some_bind]
  · intro hq
    have hstep : stepView render vN = none := by
      unfold stepView
      rw [hq]
    have hN1 : activeView render v0 (N + 1) = none := by
      rw [activeView, hN, Option.some_bind, hstep]
    intro k
    rw [activeView_add render v0 k (N + 1), hN1, Option.none_bind]
  · unfold presentsFrame
    cases hd : (render vN).2 <;> simp

/-- Witness for C1: a two-view run over `V = Nat` in which view `0`
requests `ChangeView 5` on frame 0, so frame 1 is driven by view `5`. -/
theorem C1_view_transition_witness :
    activeView (fun n => (n, if n = 0 then MViewAction.changeView 5 else MViewAction.none))
        0 (0 + 1) = some 5 :=
  ((C1_view_transition
      (fun n => (n, if n = 0 then MViewAction.changeView 5 else MViewAction.none))
      0 0 5 0 rfl).1 (by simp)).2.1

/-! ## C7 — frame pacing -/

/-- C7: in a loop iteration where fewer ticks than the fixed interval
`1000 / 60` ms have elapsed since the previous frame began, the scheduler
only delays, for exactly `interval - dt`, and retries: `before` is
unchanged (no backlog of un-simulated time), the events and view are
untouched, and the outcome does not depend on the pump or render functions
at all — they are not invoked. -/
theorem C7_frame_pacing {E V : Type} (pumpF : E → E)
    (render : E → ℚ → V → V × MViewAction V) (before now : Nat) (ev : E) (v : V)
    (hdt : now - before < loopInterval) :
    loopIter pumpF render before now ev v
        = LoopIterResult.waited (loopInterval - (now - before)) before ev v
    ∧ ∀ (pumpF2 : E → E) (render2 : E → ℚ → V → V × MViewAction V),
        loopIter pumpF render before now ev v = loopIter pumpF2 render2 before now ev v := by
  constructor
  · unfold loopIter
    rw [if_pos hdt]
  · intro pumpF2 render2
    unfold loopIter
    rw [if_pos hdt, if_pos hdt]

/-- Witness for C7: with `before = 0` and `now = 10`, `dt = 10 < 16`, so
the iteration is a pure 6 ms delay. -/
theorem C7_frame_pacing_witness :
    10 - 0 < loopInterval
    ∧ loopIter (fun (e : Unit) => e) (fun _ _ (v : Unit) => (v, MViewAction.none))
        0 10 () ()
        = LoopIterResult.waited (loopInterval - (10 - 0)) 0 () () :=
  ⟨by decide,
   (C7_frame_pacing (fun (e : Unit) => e) (fun _ _ (v : Unit) => (v, MViewAction.none))
      0 10 () () (by decide)).1⟩

/-! ## C10 — direction-independent speed -/

/-- C10: reading the movement code over the reals with the exact `√2`, the
ship's speed is direction-independent — with exactly one key held on each
axis the per-axis displacements both have magnitude `180·elapsed/√2` and
the total displacement has magnitude exactly `180·elapsed`
(`PLAYER_SPEED = 180`), the same as single-axis movement; holding both or
neither key of an axis moves nothing along that axis. -/
theorem C10_diagonal_movement (key_up key_down key_left key_right : Bool)
    (elapsed : ℝ) (he : 0 ≤ elapsed) :
    ((key_left ≠ key_right) → (key_up ≠ key_down) →
        |(shipDelta (Real.sqrt 2) key_up key_down key_left key_right elapsed).1|
            = 180 * elapsed / Real.sqrt 2
        ∧ |(shipDelta (Real.sqrt 2) key_up key_down key_left key_right elapsed).2|
            = 180 * elapsed / Real.sqrt 2
        ∧ Real.sqrt
            ((shipDelta (Real.sqrt 2) key_up key_down key_left key_right elapsed).1 ^ 2
              + (shipDelta (Real.sqrt 2) key_up key_down key_left key_right elapsed).2 ^ 2)
            = 180 * elapsed)
    ∧ (key_left = key_right →
        (shipDelta (Real.sqrt 2) key_up key_down key_left key_right elapsed).1 = 0)
    ∧ (key_up = key_down →
        (shipDelta (Real.sqrt 2) key_up key_down key_left key_right elapsed).2 = 0)
    ∧ ((key_left ≠ key_right) → key_up = key_down →
        |(shipDelta (Real.sqrt 2) key_up key_down key_left key_right elapsed).1|
            = 180 * elapsed ∧ PLAYER_SPEED = 180) := by
  have hs2 : (0:ℝ) < Real.sqrt 2 := Real.sqrt_pos.mpr (by norm_num)
  have hsq : Real.sqrt 2 ^ 2 = 2 := Real.sq_sqrt (by norm_num)
  have hmnn : (0:ℝ) ≤ 1 / Real.sqrt 2 * 180 * elapsed := by positivity
  have habs1 : |1 / Real.sqrt 2 * 180 * elapsed| = 180 * elapsed / Real.sqrt 2 := by
    rw [abs_of_nonneg hmnn, one_div]
    ring
  have habs2 : |-(1 / Real.sqrt 2 * 180 * elapsed)| = 180 * elapsed / Real.sqrt 2 := by
    rw [abs_neg]
    exact habs1
  have hsum : (1 / Real.sqrt 2 * 180 * elapsed) ^ 2 + (1 / Real.sqrt 2 * 180 * elapsed) ^ 2
      = (180 * elapsed) ^ 2 := by
    have hhalf : (1 / Real.sqrt 2) ^ 2 = 1 / 2 := by
      rw [div_pow, one_pow, hsq]
    calc (1 / Real.sqrt 2 * 180 * elapsed) ^ 2 + (1 / Real.sqrt 2 * 180 * elapsed) ^ 2
        = ((1 / Real.sqrt 2) ^ 2) * (2 * (180 * elapsed) ^ 2) := by ring
      _ = (180 * elapsed) ^ 2 := by rw [hhalf]; ring
  have hsqrtA : Real.sqrt ((1 / Real.sqrt 2 * 180 * elapsed) ^ 2
      + (1 / Real.sqrt 2 * 180 * elapsed) ^ 2) = 180 * elapsed := by
    rw [hsum]
    exact Real.sqrt_sq (by positivity)
  have hsqrtB : Real.sqrt ((1 / Real.sqrt 2 * 180 * elapsed) ^ 2
      + (-(1 / Real.sqrt 2 * 180 * elapsed)) ^ 2) = 180 * elapsed := by
    rw [neg_sq]
    exact hsqrtA
  have hsqrtC : Real.sqrt ((-(1 / Real.sqrt 2 * 180 * elapsed)) ^ 2
      + (1 / Real.sqrt 2 * 180 * elapsed) ^ 2) = 180 * elapsed := by
    rw [neg_sq]
    exact hsqrtA
  have hsqrtD : Real.sqrt ((-(1 / Real.sqrt 2 * 180 * elapsed)) ^ 2
      + (-(1 / Real.sqrt 2 * 180 * elapsed)) ^ 2) = 180 * elapsed := by
    rw [neg_sq]
    exact hsqrtA
  have habs3 : |(1:ℝ) * 180 * elapsed| = 180 * elapsed := by
    rw [abs_of_nonneg (by positivity)]
    ring
  have habs4 : |-((1:ℝ) * 180 * elapsed)| = 180 * elapsed := by
    rw [abs_neg]
    exact habs3
  refine ⟨?_, ?_, ?_, ?_⟩
  · intro h1 h2
    have hlr : key_right = !key_left := by
      cases key_left <;> cases key_right <;> simp_all
    have hud : key_down = !key_up := by
      cases key_up <;> cases key_down <;> simp_all
    subst hlr
    subst hud
    cases key_left <;> cases key_up <;> refine ⟨?_, ?_, ?_⟩ <;>
      first
        | exact habs1
        | exact habs2
        | exact hsqrtA
        | exact hsqrtB
        | exact hsqrtC
        | exact hsqrtD
  · intro h1
    subst h1
    cases key_left <;> rfl
  · intro h1
    subst h1
    cases key_up <;> rfl
  · intro h1 h2
    subst h2
    have hlr : key_right = !key_left := by
      cases key_left <;> cases key_right <;> simp_all
    subst hlr
    cases key_left <;> cases key_up <;>
      exact ⟨by first | exact habs3 | exact habs4, rfl⟩

/-- Witness for C10 at a concrete input: up-left diagonal movement for one
second, with both per-axis magnitudes `180/√2` and total magnitude 180. -/
theorem C10_diagonal_movement_witness :
    (0:ℝ) ≤ 1
    ∧ (true ≠ false)
    ∧ (|(shipDelta (Real.sqrt 2) false true true false 1).1| = 180 * 1 / Real.sqrt 2
        ∧ |(shipDelta (Real.sqrt 2) false true true false 1).2| = 180 * 1 / Real.sqrt 2
        ∧ Real.sqrt ((shipDelta (Real.sqrt 2) false true true false 1).1 ^ 2
            + (shipDelta (Real.sqrt 2) false true true false 1).2 ^ 2) = 180 * 1) :=
  ⟨by norm_num, by decide,
   (C10_diagonal_movement false true true false 1 (by norm_num)).1 (by decide) (by decide)⟩
